import Mathlib

/-!
Shallow embedding of the fund valuation engine of this repository:
`calculateEstimatedNav`, `formatValuationResult`, `getValuationColor` and
`getValuationIcon`.  Finite JavaScript numbers are modelled as exact
rationals; `parseFloat(x.toFixed(f))` is modelled as exact decimal rounding
to `f` places, ties away from zero, as the ECMAScript `toFixed`
specification prescribes.  The clock value `new Date().toISOString()` is
passed in as an explicit parameter `now`.
-/

/-- Market quote for one security, mirroring the source interface `StockQuote`. -/
structure StockQuote where
  code : String
  price : ℚ
  change : ℚ
  changePercent : ℚ
  prevClose : ℚ
  «open» : ℚ
  deriving DecidableEq, Repr

/-- One disclosed position of the fund, mirroring the source interface `FundHolding`. -/
structure FundHolding where
  stockCode : String
  stockName : String
  ratio : ℚ
  shares : Option ℚ
  reportDate : String
  deriving DecidableEq, Repr

/-- One row of the per-holding breakdown in `ValuationResult.holdings`. -/
structure HoldingDetail where
  code : String
  name : String
  ratio : ℚ
  currentPrice : ℚ
  changePercent : ℚ
  contribution : ℚ
  deriving DecidableEq, Repr

/-- The `dataQuality` block of the result. -/
structure DataQuality where
  totalRatio : ℚ
  coverage : ℚ
  isReliable : Bool
  deriving DecidableEq, Repr

/-- The engine output, mirroring the source interface `ValuationResult`. -/
structure ValuationResult where
  fundCode : String
  fundName : String
  lastNav : ℚ
  estimatedNav : ℚ
  estimatedChange : ℚ
  estimatedChangePercent : ℚ
  calculationTime : String
  holdings : List HoldingDetail
  dataQuality : DataQuality
  deriving DecidableEq, Repr

/-- Decimal rounding to `f` places: models `parseFloat(x.toFixed(f))` on an
exact rational value.  ECMAScript `toFixed` keeps the sign of `x` and rounds
the magnitude to the nearest multiple of `10 ^ (-f)`, ties away from zero. -/
def roundTo (f : ℕ) (x : ℚ) : ℚ :=
  if x < 0 then -(((((-x) * 10 ^ f + 1 / 2).floor : ℤ) : ℚ) / 10 ^ f)
  else ((((x * 10 ^ f + 1 / 2).floor : ℤ) : ℚ) / 10 ^ f)

/-- The quote lookup: models `quoteMap = new Map()` filled by
`quotes.forEach(q => quoteMap.set(q.code, q))` and read by
`quoteMap.get(code)`.  A later `set` for the same code overwrites an earlier
one, so the value found is the last quote in the list bearing the code. -/
def quoteLookup (quotes : List StockQuote) (code : String) : Option StockQuote :=
  quotes.foldl (fun acc q => if q.code = code then some q else acc) none

/-- Accumulators of the single pass over `holdings` (source lines 72-108). -/
structure LoopState where
  weightedChangePercent : ℚ
  totalRatio : ℚ
  validHoldings : ℕ
  holdingDetails : List HoldingDetail
  deriving DecidableEq, Repr

/-- Body of the `for (const holding of holdings)` loop (source lines 78-108). -/
def processHolding (quotes : List StockQuote) (s : LoopState) (holding : FundHolding) :
    LoopState :=
  match quoteLookup quotes holding.stockCode with
  | some quote =>
      let contribution := holding.ratio / 100 * quote.changePercent
      { weightedChangePercent := s.weightedChangePercent + contribution
        totalRatio := s.totalRatio + holding.ratio
        validHoldings := s.validHoldings + 1
        holdingDetails := s.holdingDetails ++
          [{ code := holding.stockCode, name := holding.stockName, ratio := holding.ratio,
             currentPrice := quote.price, changePercent := quote.changePercent,
             contribution := contribution }] }
  | none =>
      { s with holdingDetails := s.holdingDetails ++
          [{ code := holding.stockCode, name := holding.stockName, ratio := holding.ratio,
             currentPrice := 0, changePercent := 0, contribution := 0 }] }

/-- The full pass over the holdings, starting from the zero accumulators. -/
def runLoop (quotes : List StockQuote) (holdings : List FundHolding) : LoopState :=
  holdings.foldl (processHolding quotes) ⟨0, 0, 0, []⟩

/-- Stable insertion step of the descending sort by `contribution`:
an element already in place stays before the inserted one exactly when its
contribution is strictly larger, so equal contributions keep their order. -/
def insertDesc (x : HoldingDetail) : List HoldingDetail → List HoldingDetail
  | [] => [x]
  | y :: ys => if x.contribution < y.contribution then y :: insertDesc x ys else x :: y :: ys

/-- Models `holdingDetails.sort((a, b) => b.contribution - a.contribution)`:
ECMAScript `Array.prototype.sort` is stable and this comparator induces the
total preorder "larger contribution first", so the call produces the stable
descending reordering, realised here as a stable insertion sort. -/
def sortByContributionDesc : List HoldingDetail → List HoldingDetail
  | [] => []
  | x :: xs => insertDesc x (sortByContributionDesc xs)

/-- The valuation engine, source lines 60-135, over finite JavaScript numbers
modelled as rationals.  The clock value used for `calculationTime` is the
parameter `now`, which the source stores verbatim and uses nowhere else. -/
def calculateEstimatedNav (fundCode fundName : String) (lastNav : ℚ)
    (holdings : List FundHolding) (quotes : List StockQuote) (now : String) :
    ValuationResult :=
  let s := runLoop quotes holdings
  let estimatedChangePercent := s.weightedChangePercent
  let estimatedChange := lastNav * (estimatedChangePercent / 100)
  let estimatedNav := lastNav + estimatedChange
  let coverage := s.totalRatio
  let isReliable := decide (coverage ≥ 50)
  { fundCode := fundCode
    fundName := fundName
    lastNav := lastNav
    estimatedNav := roundTo 4 estimatedNav
    estimatedChange := roundTo 4 estimatedChange
    estimatedChangePercent := roundTo 2 estimatedChangePercent
    calculationTime := now
    holdings := sortByContributionDesc s.holdingDetails
    dataQuality := { totalRatio := roundTo 2 s.totalRatio
                     coverage := roundTo 2 coverage
                     isReliable := isReliable } }

/-- Contribution of a single holding to the weighted change percent:
`(ratio / 100) * changePercent` when a quote matches, `0` otherwise. -/
def contributionOf (quotes : List StockQuote) (h : FundHolding) : ℚ :=
  match quoteLookup quotes h.stockCode with
  | some q => h.ratio / 100 * q.changePercent
  | none => 0

/-- Sum over the matched holdings of `(ratio / 100) * changePercent`. -/
def weightedPct (holdings : List FundHolding) (quotes : List StockQuote) : ℚ :=
  (holdings.map (contributionOf quotes)).sum

/-- Sum of `ratio` over exactly the holdings with a matching quote. -/
def sumMatchedRatio (holdings : List FundHolding) (quotes : List StockQuote) : ℚ :=
  ((holdings.filter fun h => (quoteLookup quotes h.stockCode).isSome).map
    fun h => h.ratio).sum

/-- Number of holdings with a matching quote (`validHoldings` in the source). -/
def matchedCount (holdings : List FundHolding) (quotes : List StockQuote) : ℕ :=
  (holdings.filter fun h => (quoteLookup quotes h.stockCode).isSome).length

/-- The detail row the loop emits for one holding, in input order. -/
def detailRow (quotes : List StockQuote) (h : FundHolding) : HoldingDetail :=
  match quoteLookup quotes h.stockCode with
  | some q =>
      { code := h.stockCode, name := h.stockName, ratio := h.ratio,
        currentPrice := q.price, changePercent := q.changePercent,
        contribution := h.ratio / 100 * q.changePercent }
  | none =>
      { code := h.stockCode, name := h.stockName, ratio := h.ratio,
        currentPrice := 0, changePercent := 0, contribution := 0 }

/-- NaN-propagating addition on JavaScript numbers: `none` models NaN. -/
def jadd : Option ℚ → Option ℚ → Option ℚ
  | none, _ => none
  | _, none => none
  | some a, some b => some (a + b)

/-- NaN-propagating multiplication on JavaScript numbers: `none` models NaN. -/
def jmul : Option ℚ → Option ℚ → Option ℚ
  | none, _ => none
  | _, none => none
  | some a, some b => some (a * b)

/-- NaN-propagating rounding: `(NaN).toFixed(f)` is the string `"NaN"` and
`parseFloat("NaN")` is NaN again. -/
def jround (f : ℕ) : Option ℚ → Option ℚ
  | none => none
  | some q => some (roundTo f q)

/-- Output of the engine when `lastNav` may be NaN: the fields of
`ValuationResult`, with the three fields `lastNav` reaches allowed to be NaN. -/
structure ValuationResultN where
  fundCode : String
  fundName : String
  lastNav : Option ℚ
  estimatedNav : Option ℚ
  estimatedChange : Option ℚ
  estimatedChangePercent : ℚ
  calculationTime : String
  holdings : List HoldingDetail
  dataQuality : DataQuality
  deriving DecidableEq, Repr

/-- The engine of source lines 60-135 evaluated with a possibly non-finite
(NaN, modelled as `none`) `lastNav`, holdings and quotes finite.  The source
contains no validation and no error path: the function is total, `lastNav`
flows only into `estimatedChange`, `estimatedNav` and the echoed `lastNav`
field, and NaN propagates there through `*`, `+`, `toFixed`, `parseFloat`. -/
def calculateEstimatedNavN (fundCode fundName : String) (lastNav : Option ℚ)
    (holdings : List FundHolding) (quotes : List StockQuote) (now : String) :
    ValuationResultN :=
  let s := runLoop quotes holdings
  let estimatedChangePercent := s.weightedChangePercent
  let estimatedChange := jmul lastNav (some (estimatedChangePercent / 100))
  let estimatedNav := jadd lastNav estimatedChange
  let coverage := s.totalRatio
  let isReliable := decide (coverage ≥ 50)
  { fundCode := fundCode
    fundName := fundName
    lastNav := lastNav
    estimatedNav := jround 4 estimatedNav
    estimatedChange := jround 4 estimatedChange
    estimatedChangePercent := roundTo 2 estimatedChangePercent
    calculationTime := now
    holdings := sortByContributionDesc s.holdingDetails
    dataQuality := { totalRatio := roundTo 2 s.totalRatio
                     coverage := roundTo 2 coverage
                     isReliable := isReliable } }

/-- Sign prefix used by the formatter: models `v >= 0 ? "+" : ""`. -/
def signStr (x : ℚ) : String := if x ≥ 0 then "+" else ""

/-- Fixed-decimal rendering: models `x.toFixed(f)` on an exact rational.
The sign of `x` is printed first, then the magnitude rounded to `f` decimal
places (ties away from zero) with exactly `f` fractional digits. -/
def toFixedStr (f : ℕ) (x : ℚ) : String :=
  let sign := if x < 0 then "-" else ""
  let m := (((if x < 0 then -x else x) * 10 ^ f + 1 / 2).floor).toNat
  let ip := Nat.repr (m / 10 ^ f)
  let fr := Nat.repr (m % 10 ^ f)
  let frPadded := String.mk (List.replicate (f - fr.length) '0') ++ fr
  if f = 0 then sign ++ ip else sign ++ ip ++ "." ++ frPadded

/-- One row of the holdings table (source line 166). -/
def rowLine (h : HoldingDetail) : String :=
  "| " ++ h.code ++ " | " ++ h.name ++ " | " ++ toFixedStr 2 h.ratio ++ "% | " ++
    toFixedStr 2 h.currentPrice ++ " | " ++ signStr h.changePercent ++
    toFixedStr 2 h.changePercent ++ "% | " ++ signStr h.contribution ++
    toFixedStr 3 h.contribution ++ "% |"

/-- Rendering of `calculationTime` via `new Date(t).toLocaleString("zh-CN")`:
a locale-dependent display of the timestamp.  The claims treated here do not
depend on its exact shape, so it is modelled as a total function of the
timestamp string. -/
def displayTime (t : String) : String := t

/-- The report lines pushed before the holdings table rows (source lines
143-162). -/
def headerLines (r : ValuationResult) : List String :=
  ["## " ++ r.fundName ++ " (" ++ r.fundCode ++ ") 实时估值",
   "",
   "**昨日净值**: " ++ toFixedStr 4 r.lastNav ++ " 元",
   "**估算净值**: " ++ toFixedStr 4 r.estimatedNav ++ " 元",
   "**估算涨跌**: " ++ signStr r.estimatedChange ++ toFixedStr 4 r.estimatedChange ++
     " 元 (" ++ signStr r.estimatedChangePercent ++
     toFixedStr 2 r.estimatedChangePercent ++ "%)",
   "",
   "**计算时间**: " ++ displayTime r.calculationTime,
   "",
   "### 数据质量",
   "- 持仓覆盖率: " ++ toFixedStr 2 r.dataQuality.coverage ++ "%",
   "- 可靠性: " ++ (if r.dataQuality.isReliable then "✅ 可靠" else "⚠️ 数据不足"),
   "",
   "### 前 10 大持仓贡献",
   "",
   "| 股票代码 | 股票名称 | 持仓比例 | 当前价 | 涨跌幅 | 贡献 |",
   "| --- | --- | --- | --- | --- | --- |"]

/-- The closing disclaimer line (source line 170). -/
def disclaimerLine : String :=
  "*说明: 估算净值基于最新持仓数据和实时股价计算，实际净值以基金公司公告为准。*"

/-- All report lines in push order (source lines 141-170): the header block,
then `result.holdings.slice(0, 10)` rendered as table rows, then a blank
line and the disclaimer. -/
def formatLines (r : ValuationResult) : List String :=
  headerLines r ++ (r.holdings.take 10).map rowLine ++ ["", disclaimerLine]

/-- Models `lines.join("\n")`. -/
def joinLines : List String → String
  | [] => ""
  | [x] => x
  | x :: y :: ys => x ++ "\n" ++ joinLines (y :: ys)

/-- The report formatter, source lines 140-173. -/
def formatValuationResult (r : ValuationResult) : String :=
  joinLines (formatLines r)

/-- Source lines 178-182: colour classifier of a signed percentage. -/
def getValuationColor (changePercent : ℚ) : String :=
  if changePercent > 0 then "text-red-500"
  else if changePercent < 0 then "text-green-500"
  else "text-gray-500"

/-- Source lines 187-191: trend icon classifier of a signed percentage. -/
def getValuationIcon (changePercent : ℚ) : String :=
  if changePercent > 0 then "📈"
  else if changePercent < 0 then "📉"
  else "➡️"

/-- Holding of weight 12.6 percent used by the C1 counterexample. -/
def c1Holding : FundHolding :=
  { stockCode := "600000", stockName := "浦发银行", ratio := 63 / 5, shares := none,
    reportDate := "2024-03-31" }

/-- Quote with change percent 1 used by the C1 counterexample. -/
def c1Quote : StockQuote :=
  { code := "600000", price := 10, change := 1 / 10, changePercent := 1,
    prevClose := 99 / 10, «open» := 10 }

/-- The C1 counterexample run: lastNav 2, one matched holding of weight 12.6
with quote change percent 1. -/
def c1Result : ValuationResult :=
  calculateEstimatedNav "000001" "示例基金" 2 [c1Holding] [c1Quote] "T"

/-- Holding of weight 49.996 percent used by the C3 counterexample. -/
def c3Holding : FundHolding :=
  { stockCode := "600000", stockName := "浦发银行", ratio := 12499 / 250, shares := none,
    reportDate := "2024-03-31" }

/-- Flat quote used by the C3 counterexample. -/
def c3Quote : StockQuote :=
  { code := "600000", price := 10, change := 0, changePercent := 0,
    prevClose := 10, «open» := 10 }

/-- The C3 counterexample run: a single matched holding of weight 49.996. -/
def c3Result : ValuationResult :=
  calculateEstimatedNav "000001" "示例基金" 1 [c3Holding] [c3Quote] "T"

/-- Holding with no quote available, used by the C4 witness. -/
def c4Holding : FundHolding :=
  { stockCode := "600001", stockName := "邯郸钢铁", ratio := 5, shares := none,
    reportDate := "2024-03-31" }

/-- Holding used by the C6 witness. -/
def c6Holding : FundHolding :=
  { stockCode := "600000", stockName := "浦发银行", ratio := 50, shares := none,
    reportDate := "2024-03-31" }

/-- Earlier duplicate quote used by the C6 witness. -/
def c6QuoteOld : StockQuote :=
  { code := "600000", price := 5, change := 0, changePercent := 1,
    prevClose := 5, «open» := 5 }

/-- Later duplicate quote used by the C6 witness. -/
def c6QuoteNew : StockQuote :=
  { code := "600000", price := 6, change := 0, changePercent := 2,
    prevClose := 6, «open» := 6 }

/-- A concrete breakdown row used by the C7 witness. -/
def c7Row : HoldingDetail :=
  { code := "600519", name := "贵州茅台", ratio := 8, currentPrice := 1500,
    changePercent := 2, contribution := 4 / 25 }

/-- A concrete valuation result used by the C7 witness. -/
def c7Result : ValuationResult :=
  { fundCode := "000001", fundName := "示例基金", lastNav := 1, estimatedNav := 1,
    estimatedChange := 0, estimatedChangePercent := 0, calculationTime := "T",
    holdings := [c7Row],
    dataQuality := { totalRatio := 8, coverage := 8, isReliable := false } }

/-- Characterisation of the holdings pass: folding `processHolding` adds the
matched-holdings sums to the accumulators and appends the detail rows in
input order. -/
theorem foldl_processHolding (quotes : List StockQuote) (holdings : List FundHolding) :
    ∀ init : LoopState,
      holdings.foldl (processHolding quotes) init =
        { weightedChangePercent := init.weightedChangePercent + weightedPct holdings quotes
          totalRatio := init.totalRatio + sumMatchedRatio holdings quotes
          validHoldings := init.validHoldings + matchedCount holdings quotes
          holdingDetails := init.holdingDetails ++ holdings.map (detailRow quotes) } := by
  induction holdings with
  | nil => intro init; simp [weightedPct, sumMatchedRatio, matchedCount]
  | cons h t ih =>
      intro init
      rw [List.foldl_cons, ih]
      cases hq : quoteLookup quotes h.stockCode with
      | some q =>
          simp only [processHolding, hq, weightedPct, sumMatchedRatio, matchedCount,
            contributionOf, detailRow, List.map_cons, List.sum_cons, List.filter_cons,
            Option.isSome_some, if_true, List.length_cons, LoopState.mk.injEq]
          refine ⟨by ring, by ring, by omega, by simp⟩
      | none =>
          simp only [processHolding, hq, weightedPct, sumMatchedRatio, matchedCount,
            contributionOf, detailRow, List.map_cons, List.sum_cons, List.filter_cons,
            Option.isSome_none, if_false, LoopState.mk.injEq]
          refine ⟨by ring, rfl, rfl, by simp⟩

/-- The holdings pass from the zero accumulators, in closed form. -/
theorem runLoop_spec (quotes : List StockQuote) (holdings : List FundHolding) :
    runLoop quotes holdings =
      { weightedChangePercent := weightedPct holdings quotes
        totalRatio := sumMatchedRatio holdings quotes
        validHoldings := matchedCount holdings quotes
        holdingDetails := holdings.map (detailRow quotes) } := by
  rw [runLoop, foldl_processHolding]
  simp

/-- Membership is preserved by the insertion step. -/
theorem mem_insertDesc {z x : HoldingDetail} :
    ∀ {l : List HoldingDetail}, z ∈ insertDesc x l ↔ z = x ∨ z ∈ l := by
  intro l
  induction l with
  | nil => simp [insertDesc]
  | cons y ys ih =>
      rw [insertDesc]
      split
      · simp only [List.mem_cons, ih]
        tauto
      · simp only [List.mem_cons]

/-- The insertion step preserves the descending order by contribution. -/
theorem pairwise_insertDesc {x : HoldingDetail} :
    ∀ {l : List HoldingDetail},
      l.Pairwise (fun a b => b.contribution ≤ a.contribution) →
      (insertDesc x l).Pairwise (fun a b => b.contribution ≤ a.contribution) := by
  intro l
  induction l with
  | nil => intro _; simp [insertDesc]
  | cons y ys ih =>
      intro hp
      rw [List.pairwise_cons] at hp
      obtain ⟨hy, hys⟩ := hp
      rw [insertDesc]
      split
      · rename_i hlt
        rw [List.pairwise_cons]
        refine ⟨?_, ih hys⟩
        intro z hz
        rcases mem_insertDesc.mp hz with hzx | hz2
        · rw [hzx]; exact le_of_lt hlt
        · exact hy z hz2
      · rename_i hnlt
        rw [List.pairwise_cons]
        refine ⟨?_, ?_⟩
        · intro z hz
          rcases List.mem_cons.mp hz with hzy | hz2
          · rw [hzy]; exact le_of_not_lt hnlt
          · exact le_trans (hy z hz2) (le_of_not_lt hnlt)
        · rw [List.pairwise_cons]
          exact ⟨hy, hys⟩

/-- The sorted breakdown is descending in `contribution`. -/
theorem pairwise_sortByContributionDesc (l : List HoldingDetail) :
    (sortByContributionDesc l).Pairwise (fun a b => b.contribution ≤ a.contribution) := by
  induction l with
  | nil => simp [sortByContributionDesc]
  | cons x xs ih => rw [sortByContributionDesc]; exact pairwise_insertDesc ih

/-- The sort does not add or remove rows. -/
theorem mem_sortByContributionDesc {z : HoldingDetail} :
    ∀ {l : List HoldingDetail}, z ∈ sortByContributionDesc l ↔ z ∈ l := by
  intro l
  induction l with
  | nil => simp [sortByContributionDesc]
  | cons x xs ih =>
      rw [sortByContributionDesc, mem_insertDesc, ih, List.mem_cons]

/-- Restricted to the rows of any one contribution value, the insertion step
only prepends the inserted row when it bears that value. -/
theorem filter_insertDesc (c : ℚ) (x : HoldingDetail) :
    ∀ l : List HoldingDetail,
      (insertDesc x l).filter (fun r => decide (r.contribution = c)) =
        if x.contribution = c then
          x :: l.filter (fun r => decide (r.contribution = c))
        else l.filter (fun r => decide (r.contribution = c)) := by
  intro l
  induction l with
  | nil =>
      rw [insertDesc]
      by_cases hx : x.contribution = c <;> simp [hx]
  | cons y ys ih =>
      rw [insertDesc]
      split
      · rename_i hlt
        by_cases hy : y.contribution = c
        · have hx : ¬ x.contribution = c := by
            intro h
            rw [h, hy] at hlt
            exact lt_irrefl _ hlt
          simp [List.filter_cons, hy, hx, ih]
        · simp [List.filter_cons, hy, ih]
      · rename_i hnlt
        by_cases hx : x.contribution = c <;> simp [List.filter_cons, hx]

/-- Stability of the sort: the rows of any one contribution value appear in
the sorted output exactly as they appear in the input. -/
theorem filter_sortByContributionDesc (c : ℚ) :
    ∀ l : List HoldingDetail,
      (sortByContributionDesc l).filter (fun r => decide (r.contribution = c)) =
        l.filter (fun r => decide (r.contribution = c)) := by
  intro l
  induction l with
  | nil => rw [sortByContributionDesc]
  | cons x xs ih =>
      rw [sortByContributionDesc, filter_insertDesc]
      by_cases hx : x.contribution = c <;> simp [List.filter_cons, hx, ih]

/-- Folding the `Map.set` updates over a list from an arbitrary accumulator:
the accumulator only survives when no entry of the list bears the code. -/
theorem foldl_quoteLookup (code : String) :
    ∀ (l : List StockQuote) (a : Option StockQuote),
      l.foldl (fun acc q => if q.code = code then some q else acc) a =
        if (quoteLookup l code).isSome then quoteLookup l code else a := by
  intro l
  induction l with
  | nil => intro a; simp [quoteLookup]
  | cons q t ih =>
      intro a
      have h2 : quoteLookup (q :: t) code =
          if (quoteLookup t code).isSome then quoteLookup t code
          else if q.code = code then some q else none := by
        rw [quoteLookup, List.foldl_cons]
        exact ih (if q.code = code then some q else none)
      rw [List.foldl_cons, ih, h2]
      cases hqt : quoteLookup t code <;> by_cases hqc : q.code = code <;> simp [hqt, hqc]

/-- One step of the lookup: the tail wins over the head entry. -/
theorem quoteLookup_cons (q : StockQuote) (t : List StockQuote) (code : String) :
    quoteLookup (q :: t) code =
      if (quoteLookup t code).isSome then quoteLookup t code
      else if q.code = code then some q else none := by
  rw [quoteLookup, List.foldl_cons]
  exact foldl_quoteLookup code t (if q.code = code then some q else none)

/-- Looking a code up in an appended list: the later block wins. -/
theorem quoteLookup_append (l1 l2 : List StockQuote) (code : String) :
    quoteLookup (l1 ++ l2) code =
      if (quoteLookup l2 code).isSome then quoteLookup l2 code
      else quoteLookup l1 code := by
  rw [quoteLookup, List.foldl_append]
  exact foldl_quoteLookup code l2 (quoteLookup l1 code)

/-- A list containing an entry with the code always yields a hit. -/
theorem quoteLookup_isSome_of_mem {l : List StockQuote} {q2 : StockQuote} {code : String}
    (hmem : q2 ∈ l) (hcode : q2.code = code) : (quoteLookup l code).isSome = true := by
  induction l with
  | nil => cases hmem
  | cons q t ih =>
      rw [quoteLookup_cons]
      rcases List.mem_cons.mp hmem with hq | ht
      · cases hqt : quoteLookup t code
        · have : q.code = code := by rw [← hq]; exact hcode
          simp [hqt, this]
        · simp [hqt]
      · have := ih ht
        cases hqt : quoteLookup t code
        · rw [hqt] at this; simp at this
        · simp [hqt]

/-- Removing a quote that is shadowed by a later entry with the same code
does not change any lookup. -/
theorem quoteLookup_dup_erase {l1 l2 : List StockQuote} {q1 : StockQuote}
    (hdup : ∃ q2 ∈ l2, q2.code = q1.code) :
    ∀ c : String, quoteLookup (l1 ++ q1 :: l2) c = quoteLookup (l1 ++ l2) c := by
  intro c
  obtain ⟨q2, hmem, hcode⟩ := hdup
  rw [quoteLookup_append, quoteLookup_append, quoteLookup_cons]
  by_cases hc : q1.code = c
  · have hsome : (quoteLookup l2 c).isSome = true :=
      quoteLookup_isSome_of_mem hmem (by rw [hcode, hc])
    simp [hsome]
  · cases hqt : quoteLookup l2 c <;> simp [hqt, hc]

/-- The holdings pass reads the quotes only through `quoteLookup`. -/
theorem foldl_processHolding_congr {qs1 qs2 : List StockQuote}
    (h : ∀ c : String, quoteLookup qs1 c = quoteLookup qs2 c) :
    ∀ (holdings : List FundHolding) (init : LoopState),
      holdings.foldl (processHolding qs1) init = holdings.foldl (processHolding qs2) init := by
  intro holdings
  induction holdings with
  | nil => intro init; rfl
  | cons hh t ih =>
      intro init
      rw [List.foldl_cons, List.foldl_cons]
      have hstep : processHolding qs1 init hh = processHolding qs2 init hh := by
        rw [processHolding, processHolding, h hh.stockCode]
      rw [hstep, ih]

/-- The engine reads the quotes only through `quoteLookup`: two quote lists
that induce the same lookups produce identical results. -/
theorem calculateEstimatedNav_congr {qs1 qs2 : List StockQuote}
    (h : ∀ c : String, quoteLookup qs1 c = quoteLookup qs2 c)
    (fundCode fundName : String) (lastNav : ℚ) (holdings : List FundHolding) (now : String) :
    calculateEstimatedNav fundCode fundName lastNav holdings qs1 now =
      calculateEstimatedNav fundCode fundName lastNav holdings qs2 now := by
  have hrun : runLoop qs1 holdings = runLoop qs2 holdings := by
    rw [runLoop, runLoop]
    exact foldl_processHolding_congr h holdings ⟨0, 0, 0, []⟩
  rw [calculateEstimatedNav, calculateEstimatedNav, hrun]

/-- Claim C1, counterexample.  The claim asserts that the equalities
`estimatedNav = lastNav + estimatedChange` and
`estimatedChange = lastNav * estimatedChangePercent / 100` hold between the
output fields of the returned result.  At lastNav 2 with a single matched
holding of weight 12.6 and quote change percent 1 the engine returns
`estimatedChange = 0.0025` (rounded to 4 places from the exact 0.00252) but
`lastNav * estimatedChangePercent / 100 = 2 * 0.13 / 100 = 0.0026`, because
the percent field was rounded to 2 places independently; so the conjunction
fails on the output fields. -/
theorem c1_output_identity_cex :
    ¬ (c1Result.estimatedNav = c1Result.lastNav + c1Result.estimatedChange ∧
       c1Result.estimatedChange = c1Result.lastNav * c1Result.estimatedChangePercent / 100) := by
  norm_num [c1Result, calculateEstimatedNav, runLoop, processHolding, quoteLookup,
    c1Holding, c1Quote, List.foldl, roundTo, Rat.floor_def']

/-- Claim C1, amended.  The invariants hold between the exact, unrounded
intermediate values: with `p = weightedPct holdings quotes`, the sum over
matched holdings of `(ratio / 100) * changePercent`, the engine returns
`estimatedChangePercent = roundTo 2 p`,
`estimatedChange = roundTo 4 (lastNav * (p / 100))` and
`estimatedNav = roundTo 4 (lastNav + lastNav * (p / 100))`, each rounded
exactly once at output from the unrounded intermediates, and echoes
`lastNav` unchanged.  The equalities need not survive between the
independently rounded output fields themselves. -/
theorem c1_rounding_policy (fundCode fundName now : String) (lastNav : ℚ)
    (holdings : List FundHolding) (quotes : List StockQuote) :
    (calculateEstimatedNav fundCode fundName lastNav holdings quotes now).estimatedChangePercent
        = roundTo 2 (weightedPct holdings quotes) ∧
    (calculateEstimatedNav fundCode fundName lastNav holdings quotes now).estimatedChange
        = roundTo 4 (lastNav * (weightedPct holdings quotes / 100)) ∧
    (calculateEstimatedNav fundCode fundName lastNav holdings quotes now).estimatedNav
        = roundTo 4 (lastNav + lastNav * (weightedPct holdings quotes / 100)) ∧
    (calculateEstimatedNav fundCode fundName lastNav holdings quotes now).lastNav = lastNav := by
  rw [calculateEstimatedNav, runLoop_spec]
  exact ⟨rfl, rfl, rfl, rfl⟩

/-- Claim C2, counterexample.  The claim asserts that a non-finite `lastNav`
(NaN) makes the engine fail with an InvalidInput error and never lets it
silently return a NaN-laden result.  The source has no validation and no
error path: called with NaN `lastNav` it returns a complete `ValuationResult`
whose `estimatedNav` and `estimatedChange` are NaN. -/
theorem c2_invalid_input_cex :
    (calculateEstimatedNavN "000001" "示例基金" none [] [] "T").estimatedNav = none ∧
    (calculateEstimatedNavN "000001" "示例基金" none [] [] "T").estimatedChange = none :=
  ⟨rfl, rfl⟩

/-- Claim C2, amended.  `calculateEstimatedNav` performs no input validation:
for every fund, holdings and quotes, a NaN `lastNav` is echoed unchanged and
propagates into `estimatedChange` and `estimatedNav` of the returned result;
no error is raised and the remaining fields are still produced. -/
theorem c2_nan_propagation (fundCode fundName now : String)
    (holdings : List FundHolding) (quotes : List StockQuote) :
    (calculateEstimatedNavN fundCode fundName none holdings quotes now).lastNav = none ∧
    (calculateEstimatedNavN fundCode fundName none holdings quotes now).estimatedChange = none ∧
    (calculateEstimatedNavN fundCode fundName none holdings quotes now).estimatedNav = none :=
  ⟨rfl, rfl, rfl⟩

/-- Claim C3, counterexample.  The claim asserts `isReliable` is true exactly
when the returned (rounded) `coverage` is at least 50, with output coverage
50.00 forcing `isReliable = true`.  A single matched holding of weight
49.996 yields output coverage 50 (rounded to 2 places) while `isReliable`
is computed from the unrounded 49.996 and is false. -/
theorem c3_reliability_cex :
    ¬ ((c3Result.dataQuality.isReliable = true) ↔ 50 ≤ c3Result.dataQuality.coverage) := by
  norm_num [c3Result, calculateEstimatedNav, runLoop, processHolding, quoteLookup,
    c3Holding, c3Quote, List.foldl, roundTo, Rat.floor_def']

/-- Claim C3, amended.  `isReliable` is decided on the exact, pre-rounding
coverage: it is true exactly when the unrounded sum of matched ratios is at
least 50, while the returned `coverage` field is that sum rounded to 2
decimal places -- so an output coverage of 50.00 can accompany
`isReliable = false` when the exact coverage is just below 50. -/
theorem c3_reliability_threshold (fundCode fundName now : String) (lastNav : ℚ)
    (holdings : List FundHolding) (quotes : List StockQuote) :
    (calculateEstimatedNav fundCode fundName lastNav holdings quotes now).dataQuality.isReliable
        = decide (sumMatchedRatio holdings quotes ≥ 50) ∧
    (calculateEstimatedNav fundCode fundName lastNav holdings quotes now).dataQuality.coverage
        = roundTo 2 (sumMatchedRatio holdings quotes) := by
  rw [calculateEstimatedNav, runLoop_spec]
  exact ⟨rfl, rfl⟩

/-- Claim C4: `dataQuality.totalRatio` is the sum of `ratio` over exactly the
holdings with a matching quote (rounded to 2 places), `coverage` equals
`totalRatio`, and every holding without a matching quote appears in the
output breakdown as a row with `currentPrice = 0`, `changePercent = 0` and
`contribution = 0`, contributing nothing to the sums. -/
theorem c4_coverage_policy (fundCode fundName now : String) (lastNav : ℚ)
    (holdings : List FundHolding) (quotes : List StockQuote) :
    (calculateEstimatedNav fundCode fundName lastNav holdings quotes now).dataQuality.totalRatio
        = roundTo 2 (sumMatchedRatio holdings quotes) ∧
    (calculateEstimatedNav fundCode fundName lastNav holdings quotes now).dataQuality.coverage
        = (calculateEstimatedNav fundCode fundName lastNav holdings quotes
            now).dataQuality.totalRatio ∧
    ∀ h ∈ holdings, quoteLookup quotes h.stockCode = none →
      ({ code := h.stockCode, name := h.stockName, ratio := h.ratio,
         currentPrice := 0, changePercent := 0, contribution := 0 } : HoldingDetail)
        ∈ (calculateEstimatedNav fundCode fundName lastNav holdings quotes now).holdings := by
  refine ⟨?_, ?_, ?_⟩
  · rw [calculateEstimatedNav, runLoop_spec]
  · rw [calculateEstimatedNav]
  · intro h hmem hnone
    rw [calculateEstimatedNav, runLoop_spec]
    show _ ∈ sortByContributionDesc (holdings.map (detailRow quotes))
    rw [mem_sortByContributionDesc]
    have hrow : detailRow quotes h =
        { code := h.stockCode, name := h.stockName, ratio := h.ratio,
          currentPrice := 0, changePercent := 0, contribution := 0 } := by
      rw [detailRow, hnone]
    rw [← hrow]
    exact List.mem_map_of_mem (detailRow quotes) hmem

/-- Claim C4 witness: a holding with no quote at all shows up as an all-zero
row of the returned breakdown. -/
theorem c4_coverage_policy_witness :
    ({ code := "600001", name := "邯郸钢铁", ratio := 5,
       currentPrice := 0, changePercent := 0, contribution := 0 } : HoldingDetail)
      ∈ (calculateEstimatedNav "000002" "基金二" 1 [c4Holding] [] "T").holdings :=
  (c4_coverage_policy "000002" "基金二" "T" 1 [c4Holding] []).2.2 c4Holding
    (by simp [c4Holding]) rfl

/-- Claim C5: the returned breakdown is sorted by `contribution` in
descending order, and it is a stable reordering of the rows in original
input order: restricted to the rows of any one contribution value, the
output equals the input-order row list. -/
theorem c5_sorted_stable (fundCode fundName now : String) (lastNav : ℚ)
    (holdings : List FundHolding) (quotes : List StockQuote) :
    ((calculateEstimatedNav fundCode fundName lastNav holdings quotes now).holdings).Pairwise
        (fun a b => b.contribution ≤ a.contribution) ∧
    ∀ c : ℚ,
      ((calculateEstimatedNav fundCode fundName lastNav holdings quotes now).holdings).filter
          (fun r => decide (r.contribution = c))
        = (holdings.map (detailRow quotes)).filter (fun r => decide (r.contribution = c)) := by
  constructor
  · rw [calculateEstimatedNav, runLoop_spec]
    exact pairwise_sortByContributionDesc _
  · intro c
    rw [calculateEstimatedNav, runLoop_spec]
    exact filter_sortByContributionDesc c _

/-- Claim C6: a later quote with the same code wins.  Appending an entry to
the quote list overrides every earlier entry bearing its code; a quote that
is followed later in the list by another entry with the same code can be
removed without changing a single lookup or any field of the engine
result. -/
theorem c6_last_duplicate_wins (fundCode fundName now : String) (lastNav : ℚ)
    (holdings : List FundHolding) (l1 l2 : List StockQuote) (q1 : StockQuote)
    (hdup : ∃ q2 ∈ l2, q2.code = q1.code) :
    (∀ (qs : List StockQuote) (q : StockQuote) (c : String),
        quoteLookup (qs ++ [q]) c = if q.code = c then some q else quoteLookup qs c) ∧
    (∀ c : String, quoteLookup (l1 ++ q1 :: l2) c = quoteLookup (l1 ++ l2) c) ∧
    calculateEstimatedNav fundCode fundName lastNav holdings (l1 ++ q1 :: l2) now =
      calculateEstimatedNav fundCode fundName lastNav holdings (l1 ++ l2) now := by
  refine ⟨?_, quoteLookup_dup_erase hdup, ?_⟩
  · intro qs q c
    rw [quoteLookup, List.foldl_append]
    rfl
  · exact calculateEstimatedNav_congr (quoteLookup_dup_erase hdup)
      fundCode fundName lastNav holdings now

/-- Claim C6 witness: with an earlier and a later quote for code 600000, the
earlier one has no effect on the result. -/
theorem c6_last_duplicate_wins_witness :
    (∀ (qs : List StockQuote) (q : StockQuote) (c : String),
        quoteLookup (qs ++ [q]) c = if q.code = c then some q else quoteLookup qs c) ∧
    (∀ c : String,
        quoteLookup ([] ++ c6QuoteOld :: [c6QuoteNew]) c = quoteLookup ([] ++ [c6QuoteNew]) c) ∧
    calculateEstimatedNav "000001" "示例基金" 1 [c6Holding] ([] ++ c6QuoteOld :: [c6QuoteNew]) "T"
      = calculateEstimatedNav "000001" "示例基金" 1 [c6Holding] ([] ++ [c6QuoteNew]) "T" :=
  c6_last_duplicate_wins "000001" "示例基金" "T" 1 [c6Holding] [] [c6QuoteNew] c6QuoteOld
    ⟨c6QuoteNew, by simp, rfl⟩

/-- Joining lines whose last element is `d` yields a string ending in `d`. -/
theorem joinLines_append_last (l : List String) (d : String) :
    ∃ s : String, joinLines (l ++ [d]) = s ++ d := by
  induction l with
  | nil => exact ⟨"", by simp [joinLines]⟩
  | cons x xs ih =>
      cases xs with
      | nil => exact ⟨x ++ "\n", rfl⟩
      | cons y ys =>
          obtain ⟨s, hs⟩ := ih
          refine ⟨x ++ "\n" ++ s, ?_⟩
          show x ++ "\n" ++ joinLines ((y :: ys) ++ [d]) = x ++ "\n" ++ s ++ d
          rw [hs, String.append_assoc (x ++ "\n") s d]

/-- Claim C7: the report consists of the header lines, then exactly the
first `min 10 (length)` rows of `result.holdings` rendered in order, then a
blank line and the disclaimer; the whole report ends with the disclaimer;
the sign helper prints an explicit plus exactly for non-negative values; and
each table row shows code, name, weight, current price, change percent and
contribution, the signed values carrying the sign prefix. -/
theorem c7_report_shape (r : ValuationResult) :
    formatLines r = headerLines r ++ (r.holdings.take 10).map rowLine ++ ["", disclaimerLine] ∧
    ((r.holdings.take 10).map rowLine).length = min 10 r.holdings.length ∧
    (∃ s : String, formatValuationResult r = s ++ disclaimerLine) ∧
    (∀ x : ℚ, (0 ≤ x → signStr x = "+") ∧ (x < 0 → signStr x = "")) ∧
    ∀ h : HoldingDetail, rowLine h =
      "| " ++ h.code ++ " | " ++ h.name ++ " | " ++ toFixedStr 2 h.ratio ++ "% | " ++
        toFixedStr 2 h.currentPrice ++ " | " ++ signStr h.changePercent ++
        toFixedStr 2 h.changePercent ++ "% | " ++ signStr h.contribution ++
        toFixedStr 3 h.contribution ++ "% |" := by
  refine ⟨rfl, ?_, ?_, ?_, fun h => rfl⟩
  · rw [List.length_map, List.length_take]
  · rw [formatValuationResult, formatLines]
    have hshape : headerLines r ++ (r.holdings.take 10).map rowLine ++ ["", disclaimerLine] =
        (headerLines r ++ (r.holdings.take 10).map rowLine ++ [""]) ++ [disclaimerLine] := by
      simp
    rw [hshape]
    exact joinLines_append_last _ disclaimerLine
  · intro x
    constructor
    · intro hx
      rw [signStr, if_pos hx]
    · intro hx
      rw [signStr, if_neg (not_le.mpr hx)]

/-- Claim C7 witness: the sign helper at 1 and -1. -/
theorem c7_report_shape_witness : signStr 1 = "+" ∧ signStr (-1) = "" :=
  ⟨((c7_report_shape c7Result).2.2.2.1 1).1 (by norm_num),
   ((c7_report_shape c7Result).2.2.2.1 (-1)).2 (by norm_num)⟩

/-- Claim C8: the colour classifier and the icon classifier are total and
induce the same tri-state partition of a signed percentage: positive gives
the red/up pair, negative the green/down pair, everything else (zero) the
neutral pair. -/
theorem c8_tristate (changePercent : ℚ) :
    (getValuationColor changePercent, getValuationIcon changePercent) =
      if changePercent > 0 then ("text-red-500", "📈")
      else if changePercent < 0 then ("text-green-500", "📉")
      else ("text-gray-500", "➡️") := by
  rw [getValuationColor, getValuationIcon]
  by_cases h1 : changePercent > 0
  · simp [h1]
  · by_cases h2 : changePercent < 0 <;> simp [h1, h2]

/-- Claim C9: the engine is deterministic in everything but the clock.  Two
runs on identical fund, NAV, holdings and quotes agree on every output field
except possibly `calculationTime`. -/
theorem c9_deterministic (fundCode fundName : String) (lastNav : ℚ)
    (holdings : List FundHolding) (quotes : List StockQuote) (t1 t2 : String) :
    (calculateEstimatedNav fundCode fundName lastNav holdings quotes t1).fundCode
        = (calculateEstimatedNav fundCode fundName lastNav holdings quotes t2).fundCode ∧
    (calculateEstimatedNav fundCode fundName lastNav holdings quotes t1).fundName
        = (calculateEstimatedNav fundCode fundName lastNav holdings quotes t2).fundName ∧
    (calculateEstimatedNav fundCode fundName lastNav holdings quotes t1).lastNav
        = (calculateEstimatedNav fundCode fundName lastNav holdings quotes t2).lastNav ∧
    (calculateEstimatedNav fundCode fundName lastNav holdings quotes t1).estimatedNav
        = (calculateEstimatedNav fundCode fundName lastNav holdings quotes t2).estimatedNav ∧
    (calculateEstimatedNav fundCode fundName lastNav holdings quotes t1).estimatedChange
        = (calculateEstimatedNav fundCode fundName lastNav holdings quotes t2).estimatedChange ∧
    (calculateEstimatedNav fundCode fundName lastNav holdings quotes t1).estimatedChangePercent
        = (calculateEstimatedNav fundCode fundName lastNav holdings quotes
            t2).estimatedChangePercent ∧
    (calculateEstimatedNav fundCode fundName lastNav holdings quotes t1).holdings
        = (calculateEstimatedNav fundCode fundName lastNav holdings quotes t2).holdings ∧
    (calculateEstimatedNav fundCode fundName lastNav holdings quotes t1).dataQuality
        = (calculateEstimatedNav fundCode fundName lastNav holdings quotes t2).dataQuality :=
  ⟨rfl, rfl, rfl, rfl, rfl, rfl, rfl, rfl⟩
